import Mathlib

/-!
Shallow embedding of `src/main.py` of the rhcos-aliyun-pruner repository.

Python dicts are modelled as association lists (`List (String × α)`) that
preserve insertion order; JSON documents are modelled at the level of the
data the script actually inspects; the cloud provider is modelled as an
oracle (`Cloud`) saying what a `DescribeImages` call returns and which calls
raise `ClientException`/`ServerException`; Python exceptions and
`sys.exit(1)` are modelled by the `PyErr` type carried in result records.
Every function keeps a trace of the network requests it issued and of the
warning lines it logged.
-/

namespace RhcosAliyunPruner

/-- A key/value tag attached to a cloud image: one element of
`image['Tags']['Tag']` in a `DescribeImages` response. -/
structure Tag where
  tagKey : String
  tagValue : String
deriving DecidableEq

/-- One element of `response['Images']['Image']` in a `DescribeImages`
response, restricted to the fields `main.py` reads: `ImageId`, `Tags`,
`IsPublic`. -/
structure Image where
  imageId : String
  tags : List Tag
  isPublic : Bool
deriving DecidableEq

/-- The Aliyun API requests `main.py` can route through `run_cmd`
(`DescribeImagesRequest`, `TagResourcesRequest`,
`ModifyImageSharePermissionRequest`, `DeleteImageRequest`). -/
inductive Request where
  | describeImages (region : String) (imageId : String)
  | tagResources (region : String) (imageId : String) (key : String) (value : String)
  | modifyImageSharePermission (region : String) (imageId : String) (isPublic : Bool)
  | deleteImage (region : String) (imageId : String)
deriving DecidableEq

/-- The `_action_name` of a request, as printed by `run_cmd` in dry-run mode. -/
def Request.action : Request → String
  | .describeImages _ _ => "DescribeImages"
  | .tagResources _ _ _ _ => "TagResources"
  | .modifyImageSharePermission _ _ _ => "ModifyImageSharePermission"
  | .deleteImage _ _ => "DeleteImage"

/-- The cloud provider as seen through `client.do_action_with_exception`:
which describe calls raise (`ClientException`/`ServerException`), what image
list a successful `DescribeImages` returns, and which mutating calls raise. -/
structure Cloud where
  images : String → String → List Image
  describeErr : String → String → Bool
  mutateErr : Request → Bool

/-- Python exceptions and exits that `main.py` can produce. -/
inductive PyErr where
  | nameError (n : String)
  | attributeError
  | typeError
  | indexError
  | keyError (k : String)
  | valueError
  | systemExit
deriving DecidableEq

/-- Outcome of `run_cmd`: the `'dry_run'` sentinel string, the parsed bytes
of a successful call (`DescribeImages` responses carry the image list, the
bodies of mutating responses are never inspected and are modelled as `[]`),
the `False` returned when an ignored API error occurs, or `sys.exit(1)`. -/
inductive RunOutcome where
  | dryRun
  | ok (images : List Image)
  | failed
  | fatalExit
deriving DecidableEq

/-- Lines written with `print` by `main.py`. -/
inductive PrintLine where
  | dryRunBanner
  | actionToPerform (a : String)
  | parameters (r : Request)
  | buildProtected (b : String)
deriving DecidableEq

/-- Result of one `run_cmd` call: its return value, the network calls it
issued, and the lines it printed. -/
structure RunCmdResult where
  outcome : RunOutcome
  calls : List Request
  prints : List PrintLine
deriving DecidableEq

/-- `run_cmd(command, silent, ignore_error)` (main.py lines 291-310): in
dry-run mode it prints the action name and parameters and returns the
`'dry_run'` sentinel without touching the client; otherwise it issues the
call; a `ClientException`/`ServerException` is logged and aborts the process
with `sys.exit(1)` unless `ignore_error` is set, in which case `False` is
returned.  The `silent` argument is unused in the source and omitted here. -/
def runCmd (dry_run : Bool) (cloud : Cloud) (command : Request) (ignore_error : Bool) :
    RunCmdResult :=
  if dry_run then
    ⟨.dryRun, [], [.dryRunBanner, .actionToPerform command.action, .parameters command]⟩
  else
    match command with
    | .describeImages region imageId =>
      if cloud.describeErr region imageId then
        if ignore_error then ⟨.failed, [.describeImages region imageId], []⟩
        else ⟨.fatalExit, [.describeImages region imageId], []⟩
      else ⟨.ok (cloud.images region imageId), [.describeImages region imageId], []⟩
    | r =>
      if cloud.mutateErr r then
        if ignore_error then ⟨.failed, [r], []⟩ else ⟨.fatalExit, [r], []⟩
      else ⟨.ok [], [r], []⟩

/-- Result of `get_image_info`: `value = none` models the bare `return`
(Python `None`) taken on the dry-run sentinel. -/
structure InfoResult where
  value : Option (List Image)
  calls : List Request
  err : Option PyErr
deriving DecidableEq

/-- `get_image_info(region_id, image_id)` (main.py lines 184-195): sends a
`DescribeImages` request through `run_cmd`; returns `None` on the dry-run
sentinel, otherwise the parsed response (its `Images.Image` list).  The
`.failed` branch is unreachable because `ignore_error` is `False`; it is kept
total here (`False.decode` would raise `AttributeError`). -/
def get_image_info (dry_run : Bool) (cloud : Cloud) (region_id image_id : String) :
    InfoResult :=
  let r := runCmd dry_run cloud (.describeImages region_id image_id) false
  match r.outcome with
  | .dryRun => ⟨none, r.calls, none⟩
  | .ok imgs => ⟨some imgs, r.calls, none⟩
  | .failed => ⟨none, r.calls, some .attributeError⟩
  | .fatalExit => ⟨none, r.calls, some .systemExit⟩

/-- A `{'region_id': ..., 'image_id': ...}` pair as built by
`get_images_not_tagged`. -/
structure RefPair where
  region_id : String
  image_id : String
deriving DecidableEq

/-- The `tagfound` check of `get_images_not_tagged` (main.py lines 70-75):
the image carries a `bootimage` tag whose value is `true` or `false`. -/
def tagfound (image : Image) : Bool :=
  image.tags.any fun t =>
    t.tagKey == "bootimage" && (t.tagValue == "true" || t.tagValue == "false")

/-- Association-list lookup, modelling Python `d[k]` / `k in d` on a dict. -/
def dictGet {α : Type} : List (String × α) → String → Option α
  | [], _ => none
  | (k', v) :: tl, k => if k' = k then some v else dictGet tl k

/-- The key list of a dict modelled as an association list. -/
def dictKeys {α : Type} (d : List (String × α)) : List String :=
  d.map Prod.fst

/-- Association-list update `d[k] = v`: replaces the binding in place or
appends a new one, as a Python dict does. -/
def dictSet {α : Type} : List (String × α) → String → α → List (String × α)
  | [], k, v => [(k, v)]
  | (k', v') :: tl, k, v =>
    if k' = k then (k', v) :: tl else (k', v') :: dictSet tl k v

/-- `if k not in d: d[k] = []` followed by `d[k].append(x)`. -/
def appendAt {α : Type} : List (String × List α) → String → α → List (String × List α)
  | [], k, x => [(k, [x])]
  | (k', xs) :: tl, k, x =>
    if k' = k then (k', xs ++ [x]) :: tl else (k', xs) :: appendAt tl k x

/-- Result of `get_images_not_tagged`: `value = none` models the bare
`return` (Python `None`) taken when `run_cmd` yields the dry-run sentinel. -/
structure NotTaggedResult where
  value : Option (List (String × List RefPair))
  calls : List Request
  err : Option PyErr
deriving DecidableEq

/-- Inner loop of `get_images_not_tagged` over the regions of one build
(main.py lines 59-79): describes each image; on the dry-run sentinel the
whole function returns `None`; a fatal API error exits; otherwise every
image of the response without a classification tag is appended under the
build's key. -/
def notTaggedRegions (dry_run : Bool) (cloud : Cloud) (bootimage : String)
    (acc : List (String × List RefPair)) :
    List (String × String) → NotTaggedResult
  | [] => ⟨some acc, [], none⟩
  | (region, imageid) :: tl =>
    let r := runCmd dry_run cloud (.describeImages region imageid) false
    match r.outcome with
    | .dryRun => ⟨none, r.calls, none⟩
    | .fatalExit => ⟨none, r.calls, some .systemExit⟩
    | .failed => ⟨none, r.calls, some .attributeError⟩
    | .ok imgs =>
      let acc' := imgs.foldl
        (fun a image =>
          if tagfound image then a else appendAt a bootimage ⟨region, image.imageId⟩)
        acc
      let rest := notTaggedRegions dry_run cloud bootimage acc' tl
      ⟨rest.value, r.calls ++ rest.calls, rest.err⟩

/-- Outer loop of `get_images_not_tagged` over the builds (main.py
lines 58-79); the accumulator `nottagged` is shared across builds. -/
def notTaggedBuilds (dry_run : Bool) (cloud : Cloud)
    (acc : List (String × List RefPair)) :
    List (String × List (String × String)) → NotTaggedResult
  | [] => ⟨some acc, [], none⟩
  | (bootimage, regions) :: tl =>
    let r := notTaggedRegions dry_run cloud bootimage acc regions
    match r.value with
    | none => r
    | some acc' =>
      let rest := notTaggedBuilds dry_run cloud acc' tl
      ⟨rest.value, r.calls ++ rest.calls, rest.err⟩

/-- `get_images_not_tagged(bootimages)` (main.py lines 54-80): takes a
build → region → image mapping, describes each image, and returns the
`{build: [{'region_id', 'image_id'}]}` dict of images that carry no
`bootimage=true/false` classification tag; returns `None` as soon as a
describe call yields the dry-run sentinel. -/
def get_images_not_tagged (dry_run : Bool) (cloud : Cloud)
    (bootimages : List (String × List (String × String))) : NotTaggedResult :=
  notTaggedBuilds dry_run cloud [] bootimages

/-- One element of `buildjson['builds']`, restricted to the fields
`parse_release` reads: `id` and `arches`. -/
structure BuildRec where
  id : String
  arches : List String
deriving DecidableEq

/-- One element of `metajson['aliyun']`: a region `name` and an image `id`. -/
structure MetaEntry where
  name : String
  id : String
deriving DecidableEq

/-- A value of the module constant `FIRSTRELEASE` (main.py lines 34-38):
either the plain integer `0` or a release → build-id-string table. -/
inductive FRVal where
  | num (n : Nat)
  | table (t : List (String × String))

/-- The `FIRSTRELEASE` constant of main.py lines 34-38. -/
def FIRSTRELEASE : List (String × FRVal) :=
  [("aarch64", .num 0), ("ppc64le", .num 0), ("s390x", .num 0),
   ("x86_64", .table [("4.10", "410842021120118210"), ("4.11", "411842022020718390")])]

/-- Python `int(s)` on the strings this script builds: succeeds exactly on
non-empty all-digit strings, otherwise raises `ValueError`. -/
def pyInt (s : String) : Except PyErr Nat :=
  match s.toNat? with
  | some n => .ok n
  | none => .error .valueError

/-- `int((buildid.replace('.','')).replace('-',''))` (main.py line 101). -/
def buildidInt (buildid : String) : Except PyErr Nat :=
  pyInt (String.mk (buildid.data.filter fun c => c != '.' && c != '-'))

/-- `int(FIRSTRELEASE[arch][release][0])` (main.py line 104): a missing arch
or release key raises `KeyError`, subscripting the integer `0` raises
`TypeError`, and `[0]` of the empty string raises `IndexError`. -/
def firstReleaseThreshold (arch release : String) : Except PyErr Nat :=
  match dictGet FIRSTRELEASE arch with
  | none => .error (.keyError arch)
  | some (.num _) => .error .typeError
  | some (.table t) =>
    match dictGet t release with
    | none => .error (.keyError release)
    | some s =>
      match s.data with
      | [] => .error .indexError
      | c :: _ => pyInt (String.mk [c])

/-- Loop body of `parse_release` (main.py lines 95-114): builds already in
`json_file` are skipped before anything else; for the rest, the first arch
and the numeric build ordinal are computed, the per-arch threshold is looked
up, and a build at or past the threshold whose `meta.json` has an `aliyun`
key is recorded as `{region: image}`.  `meta b arch = none` models a
`meta.json` without an `aliyun` key. -/
def parseReleaseGo (release : String) (json_file_keys : List String)
    (meta : String → String → Option (List MetaEntry)) :
    List BuildRec → List (String × List (String × String)) →
    Except PyErr (List (String × List (String × String)))
  | [], releases => .ok releases
  | build :: tl, releases =>
    if build.id ∈ json_file_keys then
      parseReleaseGo release json_file_keys meta tl releases
    else
      match build.arches with
      | [] => .error .indexError
      | arch :: _ =>
        match buildidInt build.id with
        | .error e => .error e
        | .ok n =>
          match firstReleaseThreshold arch release with
          | .error e => .error e
          | .ok thr =>
            if n ≥ thr then
              match meta build.id arch with
              | none => parseReleaseGo release json_file_keys meta tl releases
              | some entries =>
                let regions := entries.foldl (fun a e => dictSet a e.name e.id) []
                parseReleaseGo release json_file_keys meta tl
                  (dictSet releases build.id regions)
            else parseReleaseGo release json_file_keys meta tl releases

/-- `parse_release(release, json_file)` (main.py lines 89-115): the builds
list stands for the fetched `builds.json`, `json_file_keys` for the keys of
the ledger dict passed in, and `meta` for the per-build `meta.json`
documents. -/
def parse_release (release : String) (builds : List BuildRec)
    (json_file_keys : List String)
    (meta : String → String → Option (List MetaEntry)) :
    Except PyErr (List (String × List (String × String))) :=
  parseReleaseGo release json_file_keys meta builds []

/-- One element of a ledger build list:
`{"region": ..., "image": ..., "deleted": ...}` (main.py line 164). -/
structure LedgerEntry where
  region : String
  image : String
  deleted : Bool
deriving DecidableEq

/-- The ledger document: a dict mapping build id to a list of entries. -/
abbrev Ledger := List (String × List LedgerEntry)

/-- The `new_data` dict built by `tag_image_and_save_to_file` (main.py
lines 155-164): every staged image becomes an entry with `deleted = False`. -/
def newDataOf : List (String × List RefPair) → Ledger → Ledger
  | [], nd => nd
  | (buildid, regions) :: tl, nd =>
    newDataOf tl
      (regions.foldl (fun a r => appendAt a buildid ⟨r.region_id, r.image_id, false⟩) nd)

/-- `data.update(new_data)` (main.py line 169): Python dict update, key by
key. -/
def dictUpdate (d new : Ledger) : Ledger :=
  new.foldl (fun a p => dictSet a p.1 p.2) d

/-- `tag_image_and_save_to_file(image_list, file_path)` (main.py
lines 154-176), returning the ledger document written to `file_path`: the
staged entries are merged into the existing file if it exists (the
`tag_image` call is commented out in the source, so no network call is
made). -/
def tag_image_and_save_to_file (image_list : List (String × List RefPair))
    (fs : Option Ledger) : Ledger :=
  let new_data := newDataOf image_list []
  match fs with
  | some data => dictUpdate data new_data
  | none => new_data

/-- Warning lines logged by `delete_image`. -/
inductive LogMsg where
  | deleting (image region : String)
  | taggedWillNotDelete (image key value : String)
  | reallyDeleting (image region : String)
deriving DecidableEq

/-- Result of scanning one entry's tag list. -/
structure ScanResult where
  deleted : Bool
  warnings : List LogMsg
  abort : Option PyErr
deriving DecidableEq

/-- The tag loop of `delete_image` (main.py lines 257-276).  The block at
lines 262-276 sits inside the `for tag` loop, so it runs once per tag that is
not the protective one: the `IsPublic` check is a `pass`, the delete request
is built but its `run_cmd` call is commented out, and the entry is marked
`deleted = True`.  When the protective tag is met, the skip warning is logged
and `return json.load("{}")` runs — `json.load` on a `str` raises
`AttributeError`, aborting the whole function before any file write. -/
def scanTags (ckey cval image_id region_id : String) : List Tag → Bool → ScanResult
  | [], del => ⟨del, [], none⟩
  | t :: ts, del =>
    if t.tagKey = ckey ∧ t.tagValue = cval then
      ⟨del, [.taggedWillNotDelete image_id ckey cval], some .attributeError⟩
    else
      let rest := scanTags ckey cval image_id region_id ts true
      ⟨rest.deleted, .reallyDeleting image_id region_id :: rest.warnings, rest.abort⟩

/-- Result of processing one build's entry list in `delete_image`:
the updated in-memory entries, the network calls issued, the warnings
logged, the positions whose `deleted` check was reached, and the exception
(if any) that aborted the loop. -/
structure BatchResult where
  items : List LedgerEntry
  calls : List Request
  warnings : List LogMsg
  processed : List Nat
  abort : Option PyErr
deriving DecidableEq

/-- Outcome of processing one not-yet-deleted ledger entry in
`delete_image`: either an exception aborted the whole call, or processing
moved on with an updated in-memory entry. -/
inductive StepOut where
  | aborted (calls : List Request) (warnings : List LogMsg) (e : PyErr)
  | done (item' : LedgerEntry) (calls : List Request) (warnings : List LogMsg)
deriving DecidableEq

/-- The network calls recorded in either `StepOut` constructor. -/
def StepOut.calls : StepOut → List Request
  | .aborted cs _ _ => cs
  | .done _ cs _ => cs

/-- Processing of one entry with `deleted == False` (main.py
lines 250-276): the `Deleting` warning is logged, the image's tags are
re-queried through `get_image_info` (its `None` dry-run answer makes the
subscript raise `TypeError`; an empty image list makes `[0]` raise
`IndexError`), and the tag loop `scanTags` runs; its abort (the protective
tag was met) aborts the whole call, otherwise the in-memory entry carries
the `deleted` flag the tag loop computed. -/
def stepEntry (dry_run : Bool) (cloud : Cloud) (ckey cval : String)
    (item : LedgerEntry) : StepOut :=
  let info := get_image_info dry_run cloud item.region item.image
  match info.err with
  | some e => .aborted info.calls [.deleting item.image item.region] e
  | none =>
    match info.value with
    | none => .aborted info.calls [.deleting item.image item.region] .typeError
    | some imgs =>
      match imgs with
      | [] => .aborted info.calls [.deleting item.image item.region] .indexError
      | img :: _ =>
        let s := scanTags ckey cval item.image item.region img.tags false
        match s.abort with
        | some e =>
          .aborted info.calls (.deleting item.image item.region :: s.warnings) e
        | none =>
          .done ⟨item.region, item.image, s.deleted⟩ info.calls
            (.deleting item.image item.region :: s.warnings)

/-- The per-entry loop of `delete_image` over one build (main.py
lines 244-278): an entry already marked deleted is skipped with a debug
line; otherwise `stepEntry` runs.  Any exception aborts processing; the
in-memory entry list of an aborted run is never written. -/
def processBuild (dry_run : Bool) (cloud : Cloud) (ckey cval : String) :
    Nat → List LedgerEntry → BatchResult
  | _, [] => ⟨[], [], [], [], none⟩
  | pos, item :: tl =>
    if item.deleted then
      let rest := processBuild dry_run cloud ckey cval (pos + 1) tl
      ⟨item :: rest.items, rest.calls, rest.warnings, pos :: rest.processed, rest.abort⟩
    else
      match stepEntry dry_run cloud ckey cval item with
      | .aborted cs ws e => ⟨item :: tl, cs, ws, [pos], some e⟩
      | .done item' cs ws =>
        let rest := processBuild dry_run cloud ckey cval (pos + 1) tl
        ⟨item' :: rest.items, cs ++ rest.calls, ws ++ rest.warnings,
         pos :: rest.processed, rest.abort⟩

/-- Result of `delete_image`: the ledger file after the call (`none` if the
file still does not exist), the network calls, the warnings, the
`(buildid, position)` pairs whose `deleted` check was reached, and the
exception (if any) the call raised. -/
structure DeleteResult where
  fs : Option Ledger
  calls : List Request
  warnings : List LogMsg
  processed : List (String × Nat)
  err : Option PyErr
deriving DecidableEq

/-- `delete_image(file_path, check_tag_key, check_tag_value)` (main.py
lines 232-282): the tag key/value default to `bootimage`/`true`.  If the file
does not exist the load is skipped and reading the unassigned local
`deleted_images_json` raises `NameError`.  Otherwise the first build's
entries are processed, the whole document is written back, and the function
returns — the `return` at line 282 sits inside the `for buildid` loop, so
later builds are never reached.  An exception while processing aborts the
call before the write, leaving the file as it was. -/
def delete_image (dry_run : Bool) (cloud : Cloud) (fs : Option Ledger)
    (check_tag_key check_tag_value : Option String) : DeleteResult :=
  let ckey := check_tag_key.getD "bootimage"
  let cval := check_tag_value.getD "true"
  match fs with
  | none => ⟨none, [], [], [], some (.nameError "deleted_images_json")⟩
  | some ledger =>
    match ledger with
    | [] => ⟨some [], [], [], [], none⟩
    | (buildid, items) :: rest =>
      let r := processBuild dry_run cloud ckey cval 0 items
      match r.abort with
      | some e =>
        ⟨some ((buildid, items) :: rest), r.calls, r.warnings,
         r.processed.map (fun p => (buildid, p)), some e⟩
      | none =>
        ⟨some ((buildid, r.items) :: rest), r.calls, r.warnings,
         r.processed.map (fun p => (buildid, p)), none⟩

/-- The value returned by `change_visibility`: the `json.dumps("{}")` no-op
document, or the parsed modify response. -/
inductive VisValue where
  | noopDoc
  | respDoc
deriving DecidableEq

/-- Result of `change_visibility`. -/
structure VisResult where
  value : Option VisValue
  calls : List Request
  err : Option PyErr
deriving DecidableEq

/-- `change_visibility(region_id, image_id, public)` (main.py lines 203-222):
reads the current visibility with `get_image_info` (a `None` dry-run answer
makes the subscript raise `TypeError`; an empty image list raises
`IndexError`); if `IsPublic` already equals `public`, no modify call is made
and the no-op document is returned; otherwise the modify request goes
through `run_cmd`.  Line 220 compares the request object `modify_req` (not
the response) with `'dry_run'`, which is always false, so in dry-run mode
`'dry_run'.decode` then raises `AttributeError`. -/
def change_visibility (dry_run : Bool) (cloud : Cloud)
    (region_id image_id : String) (public : Bool) : VisResult :=
  let info := get_image_info dry_run cloud region_id image_id
  match info.err with
  | some e => ⟨none, info.calls, some e⟩
  | none =>
    match info.value with
    | none => ⟨none, info.calls, some .typeError⟩
    | some imgs =>
      match imgs with
      | [] => ⟨none, info.calls, some .indexError⟩
      | img :: _ =>
        if img.isPublic = public then
          ⟨some .noopDoc, info.calls, none⟩
        else
          let r := runCmd dry_run cloud
            (.modifyImageSharePermission region_id image_id public) false
          match r.outcome with
          | .dryRun => ⟨none, info.calls ++ r.calls, some .attributeError⟩
          | .ok _ => ⟨some .respDoc, info.calls ++ r.calls, none⟩
          | .failed => ⟨none, info.calls ++ r.calls, some .attributeError⟩
          | .fatalExit => ⟨none, info.calls ++ r.calls, some .systemExit⟩

/-- Result of main's reconciliation loop: the staged `image_list`, the lines
printed, and the exception (if any) that aborted the loop. -/
structure ReconcileResult where
  image_list : List (String × List RefPair)
  prints : List PrintLine
  err : Option PyErr
deriving DecidableEq

/-- The loop of `main` at lines 384-401: a candidate build found in
`bootimages` is announced as protected (the `tag_image` call is commented
out); otherwise the `elif buildid in builds` test evaluates the name
`builds`, which is unbound in `main`, raising `NameError` — the `else`
branch at lines 396-401 that would stage the build into `image_list` is
unreachable. -/
def reconcileGo (bootimages : List (String × List RefPair)) :
    List (String × List RefPair) → List (String × List RefPair) → List PrintLine →
    ReconcileResult
  | [], acc, ps => ⟨acc, ps, none⟩
  | (buildid, _) :: tl, acc, ps =>
    if buildid ∈ dictKeys bootimages then
      reconcileGo bootimages tl acc (ps ++ [.buildProtected buildid])
    else
      ⟨acc, ps, some (.nameError "builds")⟩

/-- Main's reconciliation step (main.py lines 384-401) over the two
untagged mappings, starting from the empty `image_list`. -/
def mainReconcile (bootimages : List (String × List RefPair))
    (aliyun_releases : List (String × List RefPair)) : ReconcileResult :=
  reconcileGo bootimages aliyun_releases [] []

/-- Look up entry `i` of build `b` in a ledger document. -/
def entryAt (L : Ledger) (b : String) (i : Nat) : Option LedgerEntry :=
  match dictGet L b with
  | none => none
  | some items => items[i]?

/-- Example cloud for the deletion-safety scenario: image `i1` in region
`r1` carries an unrelated tag before the protective `bootimage=true` tag. -/
def c1Cloud : Cloud :=
  ⟨fun r i =>
    if r = "r1" && i = "i1" then
      [⟨"i1", [⟨"kubernetes", "owned"⟩, ⟨"bootimage", "true"⟩], false⟩]
    else [],
   fun _ _ => false, fun _ => false⟩

/-- Example ledger with one staged entry for the deletion-safety scenario. -/
def c1Ledger : Ledger := [("b1", [⟨"r1", "i1", false⟩])]

/-- Example untagged candidate mapping with an unprotected build listed
before a protected one. -/
def c3Candidates : List (String × List RefPair) :=
  [("410.2", [⟨"us-east-1", "img-B"⟩]), ("410.1", [⟨"us-east-1", "img-A"⟩])]

/-- Example untagged bootimage mapping protecting build `410.1`. -/
def c3Bootimages : List (String × List RefPair) :=
  [("410.1", [⟨"us-east-1", "img-A"⟩])]

/-- Example cloud whose describe answer carries a classified image. -/
def c5Cloud : Cloud :=
  ⟨fun _ _ => [⟨"i5", [⟨"bootimage", "true"⟩], true⟩],
   fun _ _ => false, fun _ => false⟩

/-- Example cloud returning an untagged image for every describe query. -/
def c6Cloud : Cloud :=
  ⟨fun _ i => [⟨i, [], false⟩], fun _ _ => false, fun _ => false⟩

/-- Example ledger with undeleted entries under two distinct build ids. -/
def c6Ledger : Ledger :=
  [("b1", [⟨"r1", "i1", false⟩]), ("b2", [⟨"r2", "i2", false⟩])]

/-- Example ledger holding one already-deleted entry. -/
def c7Ledger : Ledger := [("bX", [⟨"rX", "iX", true⟩])]

/-- Example `builds.json` content listing only the build already in the
ledger. -/
def c7Builds : List BuildRec := [⟨"bX", ["x86_64"]⟩]

/-- Example `meta.json` oracle with no aliyun uploads anywhere. -/
def c7Meta : String → String → Option (List MetaEntry) := fun _ _ => none

/-- Example cloud with no images and no errors. -/
def c7Cloud : Cloud := ⟨fun _ _ => [], fun _ _ => false, fun _ => false⟩

/-- Example cloud whose image is already public. -/
def c8Cloud : Cloud :=
  ⟨fun _ _ => [⟨"i8", [], true⟩], fun _ _ => false, fun _ => false⟩

/-- Example cloud whose describe call succeeds with zero images. -/
def c9Cloud : Cloud := ⟨fun _ _ => [], fun _ _ => false, fun _ => false⟩

/-- Example cloud whose describe call raises a server exception. -/
def c9ErrCloud : Cloud := ⟨fun _ _ => [], fun _ _ => true, fun _ => false⟩

/-- In live mode a describe call that does not raise returns the provider's
image list and issues exactly that one request. -/
theorem runCmd_live_describe_ok (cloud : Cloud) (r i : String) (ig : Bool)
    (h : cloud.describeErr r i = false) :
    runCmd false cloud (.describeImages r i) ig =
      ⟨.ok (cloud.images r i), [.describeImages r i], []⟩ := by
  simp [runCmd, h]

/-- In live mode `get_image_info` on a non-raising describe call returns the
provider's image list. -/
theorem get_image_info_live_ok (cloud : Cloud) (r i : String)
    (h : cloud.describeErr r i = false) :
    get_image_info false cloud r i =
      ⟨some (cloud.images r i), [.describeImages r i], none⟩ := by
  simp [get_image_info, runCmd_live_describe_ok cloud r i false h]

/-- In live mode `get_image_info` on a raising describe call exits the
process (`sys.exit(1)` inside `run_cmd`). -/
theorem get_image_info_live_err (cloud : Cloud) (r i : String)
    (h : cloud.describeErr r i = true) :
    get_image_info false cloud r i =
      ⟨none, [.describeImages r i], some .systemExit⟩ := by
  simp [get_image_info, runCmd, h]

/-- Any network call made by `get_image_info` is the describe request for
its own region and image. -/
theorem get_image_info_calls (dry_run : Bool) (cloud : Cloud) (r i : String) :
    ∀ c ∈ (get_image_info dry_run cloud r i).calls, c = Request.describeImages r i := by
  intro c hc
  cases dry_run with
  | true => simp [get_image_info, runCmd] at hc
  | false =>
    cases h : cloud.describeErr r i with
    | true => rw [get_image_info_live_err cloud r i h] at hc; simpa using hc
    | false => rw [get_image_info_live_ok cloud r i h] at hc; simpa using hc

/-- If the tag list contains the checked tag, the tag loop of `delete_image`
logs the skip warning and raises (`json.load("{}")` raises
`AttributeError`), whatever other tags surround it. -/
theorem scanTags_protective (ck cv imgid rid : String) :
    ∀ (tags : List Tag) (del : Bool), Tag.mk ck cv ∈ tags →
      (scanTags ck cv imgid rid tags del).abort = some .attributeError ∧
      LogMsg.taggedWillNotDelete imgid ck cv ∈
        (scanTags ck cv imgid rid tags del).warnings := by
  intro tags
  induction tags with
  | nil => intro del h; exact absurd h (List.not_mem_nil _)
  | cons t ts ih =>
    intro del h
    by_cases hc : t.tagKey = ck ∧ t.tagValue = cv
    · constructor
      · simp [scanTags, hc]
      · simp [scanTags, hc]
    · have hm : Tag.mk ck cv ∈ ts := by
        rcases List.mem_cons.mp h with h1 | h2
        · exact absurd ⟨by rw [← h1], by rw [← h1]⟩ hc
        · exact h2
      have hr := ih true hm
      constructor
      · simp only [scanTags, if_neg hc]
        exact hr.1
      · simp only [scanTags, if_neg hc]
        exact List.mem_cons_of_mem _ hr.2

/-- `stepEntry` on an entry whose freshly described image carries the
checked tag aborts the deletion run and logs the skip warning. -/
theorem stepEntry_protective (cloud : Cloud) (ck cv : String) (item : LedgerEntry)
    (img : Image)
    (hdesc : cloud.describeErr item.region item.image = false)
    (himg : (cloud.images item.region item.image)[0]? = some img)
    (hprot : Tag.mk ck cv ∈ img.tags) :
    ∃ ws, stepEntry false cloud ck cv item =
        .aborted [.describeImages item.region item.image] ws .attributeError ∧
      LogMsg.taggedWillNotDelete item.image ck cv ∈ ws := by
  have hscan := scanTags_protective ck cv item.image item.region img.tags false hprot
  cases hImgs : cloud.images item.region item.image with
  | nil => rw [hImgs] at himg; simp at himg
  | cons a as =>
    rw [hImgs] at himg
    simp only [List.getElem?_cons_zero, Option.some.injEq] at himg
    subst himg
    refine ⟨LogMsg.deleting item.image item.region ::
      (scanTags ck cv item.image item.region a.tags false).warnings, ?_, ?_⟩
    · simp only [stepEntry, get_image_info_live_ok cloud item.region item.image hdesc, hImgs,
        hscan.1]
    · exact List.mem_cons_of_mem _ hscan.2

/-- `stepEntry` only issues the describe call of `get_image_info`. -/
theorem stepEntry_calls_eq (dry_run : Bool) (cloud : Cloud) (ck cv : String)
    (item : LedgerEntry) :
    (stepEntry dry_run cloud ck cv item).calls =
      (get_image_info dry_run cloud item.region item.image).calls := by
  rcases hI : get_image_info dry_run cloud item.region item.image with ⟨v, cs, er⟩
  simp only [stepEntry, hI]
  cases er with
  | some e => rfl
  | none =>
    cases v with
    | none => rfl
    | some imgs =>
      cases imgs with
      | nil => rfl
      | cons img rest =>
        cases hs : (scanTags ck cv item.image item.region img.tags false).abort with
        | some e2 => simp [hs, StepOut.calls]
        | none => simp [hs, StepOut.calls]

/-- Every network call issued by the per-build loop of `delete_image` is a
describe request; in particular no delete request is ever issued (the
`run_cmd` for the delete request is commented out in the source). -/
theorem processBuild_calls (dry_run : Bool) (cloud : Cloud) (ck cv : String) :
    ∀ (items : List LedgerEntry) (pos : Nat) (c : Request),
      c ∈ (processBuild dry_run cloud ck cv pos items).calls →
      ∃ r i, c = Request.describeImages r i := by
  intro items
  induction items with
  | nil => intro pos c hc; simp [processBuild] at hc
  | cons item tl ih =>
    intro pos c hc
    cases hd : item.deleted with
    | true =>
      rw [processBuild] at hc
      simp only [hd, if_true] at hc
      exact ih (pos + 1) c hc
    | false =>
      rw [processBuild] at hc
      simp only [hd] at hc
      cases hstep : stepEntry dry_run cloud ck cv item with
      | aborted cs ws ex =>
        rw [hstep] at hc
        have : c ∈ (stepEntry dry_run cloud ck cv item).calls := by
          rw [hstep]; exact hc
        rw [stepEntry_calls_eq] at this
        exact ⟨item.region, item.image,
          get_image_info_calls dry_run cloud item.region item.image c this⟩
      | done item' cs ws =>
        rw [hstep] at hc
        rcases List.mem_append.mp hc with h1 | h2
        · have : c ∈ (stepEntry dry_run cloud ck cv item).calls := by
            rw [hstep]; exact h1
          rw [stepEntry_calls_eq] at this
          exact ⟨item.region, item.image,
            get_image_info_calls dry_run cloud item.region item.image c this⟩
        · exact ih (pos + 1) c h2

/-- If the per-build loop of `delete_image` reaches an entry that is still
marked undeleted and whose freshly described image carries the checked tag,
the loop aborts with the `AttributeError` of the skip path and the skip
warning is among the logged warnings. -/
theorem processBuild_protective (cloud : Cloud) (ck cv : String) :
    ∀ (items : List LedgerEntry) (pos j : Nat) (e : LedgerEntry) (img : Image),
      (pos + j) ∈ (processBuild false cloud ck cv pos items).processed →
      items[j]? = some e →
      e.deleted = false →
      cloud.describeErr e.region e.image = false →
      (cloud.images e.region e.image)[0]? = some img →
      Tag.mk ck cv ∈ img.tags →
      (processBuild false cloud ck cv pos items).abort = some .attributeError ∧
      LogMsg.taggedWillNotDelete e.image ck cv ∈
        (processBuild false cloud ck cv pos items).warnings := by
  intro items
  induction items with
  | nil =>
    intro pos j e img hmem hget hdel hdesc himg hprot
    simp [processBuild] at hmem
  | cons item tl ih =>
    intro pos j e img hmem hget hdel hdesc himg hprot
    cases hd : item.deleted with
    | true =>
      have hres : processBuild false cloud ck cv pos (item :: tl) =
          ⟨item :: (processBuild false cloud ck cv (pos + 1) tl).items,
           (processBuild false cloud ck cv (pos + 1) tl).calls,
           (processBuild false cloud ck cv (pos + 1) tl).warnings,
           pos :: (processBuild false cloud ck cv (pos + 1) tl).processed,
           (processBuild false cloud ck cv (pos + 1) tl).abort⟩ := by
        rw [processBuild]; simp [hd]
      rw [hres] at hmem ⊢
      cases j with
      | zero =>
        rw [List.getElem?_cons_zero] at hget
        injection hget with hget
        rw [hget, hdel] at hd
        exact absurd hd (by decide)
      | succ j' =>
        rw [List.getElem?_cons_succ] at hget
        have hne : pos + (j' + 1) ≠ pos := by omega
        have hmem' : pos + 1 + j' ∈
            (processBuild false cloud ck cv (pos + 1) tl).processed := by
          rcases List.mem_cons.mp hmem with h1 | h2
          · exact absurd h1 hne
          · have : pos + (j' + 1) = pos + 1 + j' := by omega
            rw [← this]; exact h2
        exact ih (pos + 1) j' e img hmem' hget hdel hdesc himg hprot
    | false =>
      cases hstep : stepEntry false cloud ck cv item with
      | aborted cs ws ex =>
        have hres : processBuild false cloud ck cv pos (item :: tl) =
            ⟨item :: tl, cs, ws, [pos], some ex⟩ := by
          rw [processBuild]; simp [hd, hstep]
        rw [hres] at hmem ⊢
        have hj : j = 0 := by
          rcases List.mem_cons.mp hmem with h1 | h2
          · omega
          · exact absurd h2 (List.not_mem_nil _)
        subst hj
        rw [List.getElem?_cons_zero] at hget
        injection hget with hget
        subst hget
        obtain ⟨ws', hws', hmemws⟩ :=
          stepEntry_protective cloud ck cv item img hdesc himg hprot
        rw [hstep] at hws'
        injection hws' with h1 h2 h3
        subst h2
        subst h3
        exact ⟨rfl, hmemws⟩
      | done item' cs ws =>
        have hres : processBuild false cloud ck cv pos (item :: tl) =
            ⟨item' :: (processBuild false cloud ck cv (pos + 1) tl).items,
             cs ++ (processBuild false cloud ck cv (pos + 1) tl).calls,
             ws ++ (processBuild false cloud ck cv (pos + 1) tl).warnings,
             pos :: (processBuild false cloud ck cv (pos + 1) tl).processed,
             (processBuild false cloud ck cv (pos + 1) tl).abort⟩ := by
          rw [processBuild]; simp [hd, hstep]
        rw [hres] at hmem ⊢
        cases j with
        | zero =>
          rw [List.getElem?_cons_zero] at hget
          injection hget with hget
          subst hget
          obtain ⟨ws', hws', _⟩ :=
            stepEntry_protective cloud ck cv item img hdesc himg hprot
          rw [hstep] at hws'
          exact absurd hws' (by simp)
        | succ j' =>
          rw [List.getElem?_cons_succ] at hget
          have hne : pos + (j' + 1) ≠ pos := by omega
          have hmem' : pos + 1 + j' ∈
              (processBuild false cloud ck cv (pos + 1) tl).processed := by
            rcases List.mem_cons.mp hmem with h1 | h2
            · exact absurd h1 hne
            · have : pos + (j' + 1) = pos + 1 + j' := by omega
              rw [← this]; exact h2
          have hih := ih (pos + 1) j' e img hmem' hget hdel hdesc himg hprot
          exact ⟨hih.1, List.mem_append_right ws hih.2⟩

/-- C1: for every ledger entry with `deleted = False` that the deletion
worker `delete_image` processes, if the image's current tags — as re-queried
at check time — contain the protective `bootimage=true` tag, then the
persisted ledger is left exactly as it was (so the entry's `deleted` field
stays `False`), no delete call is issued for any image, and the skip warning
for that image is logged, regardless of how many other tags the image
carries or in what order the tags are returned. -/
theorem delete_image_never_deletes_protected
    (cloud : Cloud) (L : Ledger) (b : String) (p : Nat) (e : LedgerEntry) (img : Image)
    (hproc : (b, p) ∈ (delete_image false cloud (some L) none none).processed)
    (hentry : entryAt L b p = some e)
    (hdel : e.deleted = false)
    (hdesc : cloud.describeErr e.region e.image = false)
    (himg : (cloud.images e.region e.image)[0]? = some img)
    (hprot : Tag.mk "bootimage" "true" ∈ img.tags) :
    (delete_image false cloud (some L) none none).fs = some L ∧
    (∀ r i, Request.deleteImage r i ∉ (delete_image false cloud (some L) none none).calls) ∧
    LogMsg.taggedWillNotDelete e.image "bootimage" "true" ∈
      (delete_image false cloud (some L) none none).warnings := by
  cases L with
  | nil => simp [delete_image] at hproc
  | cons hd0 rest =>
    obtain ⟨b0, items⟩ := hd0
    have hD : delete_image false cloud (some ((b0, items) :: rest)) none none =
        (match (processBuild false cloud "bootimage" "true" 0 items).abort with
         | some ex =>
           (⟨some ((b0, items) :: rest),
             (processBuild false cloud "bootimage" "true" 0 items).calls,
             (processBuild false cloud "bootimage" "true" 0 items).warnings,
             (processBuild false cloud "bootimage" "true" 0 items).processed.map
               (fun q => (b0, q)), some ex⟩ : DeleteResult)
         | none =>
           ⟨some ((b0, (processBuild false cloud "bootimage" "true" 0 items).items) :: rest),
            (processBuild false cloud "bootimage" "true" 0 items).calls,
            (processBuild false cloud "bootimage" "true" 0 items).warnings,
            (processBuild false cloud "bootimage" "true" 0 items).processed.map
              (fun q => (b0, q)), none⟩) := rfl
    have hproc' : (b, p) ∈ (processBuild false cloud "bootimage" "true" 0 items).processed.map
        (fun q => (b0, q)) := by
      rw [hD] at hproc
      cases habort : (processBuild false cloud "bootimage" "true" 0 items).abort with
      | some ex => rw [habort] at hproc; exact hproc
      | none => rw [habort] at hproc; exact hproc
    obtain ⟨q, hq, heq⟩ := List.mem_map.mp hproc'
    injection heq with hb hp
    subst hb
    subst hp
    have hentry' : items[q]? = some e := by
      simp [entryAt, dictGet] at hentry
      exact hentry
    have hq0 : 0 + q ∈ (processBuild false cloud "bootimage" "true" 0 items).processed := by
      rw [Nat.zero_add]; exact hq
    have hx := processBuild_protective cloud "bootimage" "true" items 0 q e img
      hq0 hentry' hdel hdesc himg hprot
    rw [hD, hx.1]
    refine ⟨rfl, ?_, hx.2⟩
    intro r i hmem
    obtain ⟨rr, ii, hc⟩ := processBuild_calls false cloud "bootimage" "true" items 0
      (Request.deleteImage r i) hmem
    exact Request.noConfusion hc

/-- Closed witness for the deletion-safety theorem: a staged entry whose
image carries an unrelated tag before `bootimage=true` is skipped with the
warning and the ledger file is left untouched. -/
theorem delete_image_never_deletes_protected_witness :
    (delete_image false c1Cloud (some c1Ledger) none none).fs = some c1Ledger ∧
    LogMsg.taggedWillNotDelete "i1" "bootimage" "true" ∈
      (delete_image false c1Cloud (some c1Ledger) none none).warnings := by
  have h := delete_image_never_deletes_protected c1Cloud c1Ledger "b1" 0
    ⟨"r1", "i1", false⟩ ⟨"i1", [⟨"kubernetes", "owned"⟩, ⟨"bootimage", "true"⟩], false⟩
    (by decide) (by decide) rfl rfl (by decide) (by decide)
  exact ⟨h.1, h.2.2⟩

/-- C4: with dry-run enabled, `run_cmd` prints the dry-run banner, the
action name and the parameters, returns the `'dry_run'` sentinel, and
issues no network call, whatever the action and its parameters — so no
mutating cloud call is ever made through the executor in a dry-run
execution. -/
theorem runCmd_dry_run_no_network_calls (cloud : Cloud) (command : Request)
    (ignore_error : Bool) :
    runCmd true cloud command ignore_error =
      ⟨.dryRun, [],
       [.dryRunBanner, .actionToPerform command.action, .parameters command]⟩ := rfl

/-- C10: calling `delete_image` with a file path that does not exist skips
the load, does not create the file, processes no entry, and raises
`NameError` on the never-assigned local `deleted_images_json`. -/
theorem delete_image_missing_file_raises_name_error (dry_run : Bool) (cloud : Cloud)
    (check_tag_key check_tag_value : Option String) :
    delete_image dry_run cloud none check_tag_key check_tag_value =
      ⟨none, [], [], [], some (.nameError "deleted_images_json")⟩ := rfl

/-- C2 fails on the code: with a candidate build that is neither protected
nor known, main's loop evaluates the unbound name `builds` in the `elif`
and raises `NameError`; the `else` branch never runs and nothing is ever
staged into `image_list`. -/
theorem reconcile_name_error_prevents_staging :
    mainReconcile [] [("410.2", [⟨"us-east-1", "img-B"⟩])] =
      ⟨[], [], some (.nameError "builds")⟩ := by decide

/-- C3 fails on the code: with an unprotected candidate listed before a
protected one, the `NameError` on the unbound name `builds` aborts the loop
before the protected build is ever routed to the protect action (its
protect line is never printed); `image_list` stays empty. -/
theorem reconcile_protected_build_never_routed :
    mainReconcile c3Bootimages c3Candidates = ⟨[], [], some (.nameError "builds")⟩ ∧
    PrintLine.buildProtected "410.1" ∉ (mainReconcile c3Bootimages c3Candidates).prints ∧
    dictGet (mainReconcile c3Bootimages c3Candidates).image_list "410.1" = none := by
  decide

/-- C6 fails on the code: over a ledger with two builds, each holding an
undeleted entry, `delete_image` finishes without error having reached only
the first build's entry; the `return` inside the `for buildid` loop leaves
the second build's undeleted entry unprocessed. -/
theorem delete_image_only_first_build_processed :
    (delete_image false c6Cloud (some c6Ledger) none none).processed = [("b1", 0)] ∧
    ("b2", 0) ∉ (delete_image false c6Cloud (some c6Ledger) none none).processed ∧
    (delete_image false c6Cloud (some c6Ledger) none none).err = none ∧
    entryAt ((delete_image false c6Cloud (some c6Ledger) none none).fs.getD []) "b2" 0 =
      some ⟨"r2", "i2", false⟩ := by decide

/-- In dry-run mode the region loop of `get_images_not_tagged` issues no
call: either there was nothing to query (the accumulator is passed on) or
the first query yields the sentinel and the function returns `None`. -/
theorem notTaggedRegions_dry (cloud : Cloud) (b : String)
    (acc : List (String × List RefPair)) :
    ∀ rs, (notTaggedRegions true cloud b acc rs).calls = [] ∧
      ((notTaggedRegions true cloud b acc rs).value = some acc ∨
       (notTaggedRegions true cloud b acc rs).value = none) ∧
      (notTaggedRegions true cloud b acc rs).err = none := by
  intro rs
  cases rs with
  | nil => exact ⟨rfl, .inl rfl, rfl⟩
  | cons q tl =>
    obtain ⟨region, imageid⟩ := q
    exact ⟨rfl, .inr rfl, rfl⟩

/-- In dry-run mode `get_images_not_tagged` issues no network call and
returns either `None` or its untouched accumulator. -/
theorem notTaggedBuilds_dry (cloud : Cloud) :
    ∀ (bm : List (String × List (String × String))) (acc : List (String × List RefPair)),
      (notTaggedBuilds true cloud acc bm).calls = [] ∧
      ((notTaggedBuilds true cloud acc bm).value = some acc ∨
       (notTaggedBuilds true cloud acc bm).value = none) ∧
      (notTaggedBuilds true cloud acc bm).err = none := by
  intro bm
  induction bm with
  | nil => intro acc; exact ⟨rfl, .inl rfl, rfl⟩
  | cons p tl ih =>
    intro acc
    obtain ⟨b, regions⟩ := p
    cases regions with
    | nil =>
      have h := ih acc
      exact ⟨h.1, h.2.1, h.2.2⟩
    | cons q qs =>
      obtain ⟨region, imageid⟩ := q
      exact ⟨rfl, .inr rfl, rfl⟩

/-- C5 fails on the code: with dry-run enabled, `get_image_info` issues no
describe call and returns `None` instead of the real result that the same
cloud answers in live mode. -/
theorem dry_run_read_returns_nothing :
    (get_image_info true c5Cloud "r5" "i5").value = none ∧
    (get_image_info true c5Cloud "r5" "i5").calls = [] ∧
    (get_image_info false c5Cloud "r5" "i5").value =
      some [⟨"i5", [⟨"bootimage", "true"⟩], true⟩] ∧
    (get_image_info true c5Cloud "r5" "i5").value ≠
      (get_image_info false c5Cloud "r5" "i5").value := by decide

/-- C5 (amended): with dry-run enabled the classification reads are
suppressed as well: `run_cmd` returns the sentinel without issuing the
describe call, `get_image_info` returns `None`, and `get_images_not_tagged`
issues no call and returns `None` as soon as it has an image to query (an
empty mapping when it has none). -/
theorem dry_run_disables_reads_too (cloud : Cloud) (r i : String)
    (bm : List (String × List (String × String))) :
    (get_image_info true cloud r i).value = none ∧
    (get_image_info true cloud r i).calls = [] ∧
    (get_images_not_tagged true cloud bm).calls = [] ∧
    ((get_images_not_tagged true cloud bm).value = none ∨
     (get_images_not_tagged true cloud bm).value = some []) := by
  have h := notTaggedBuilds_dry cloud bm []
  refine ⟨rfl, rfl, h.1, ?_⟩
  rcases h.2.1 with h1 | h1
  · exact .inr h1
  · exact .inl h1

/-- C9 fails on the code: a describe call that succeeds with zero images is
not an error — `get_image_info` returns the empty document and
`get_images_not_tagged` silently records nothing for that image. -/
theorem zero_image_response_silently_ignored :
    (get_image_info false c9Cloud "r9" "i9").err = none ∧
    (get_image_info false c9Cloud "r9" "i9").value = some [] ∧
    (get_images_not_tagged false c9Cloud [("b9", [("r9", "i9")])]).err = none ∧
    (get_images_not_tagged false c9Cloud [("b9", [("r9", "i9")])]).value = some [] := by
  decide

/-- C9 (amended): the classification query is fatal exactly when the remote
describe call raises — it logs the failure and exits — while a zero-image
response is not detected: `get_image_info` returns the document with an
empty image list and `get_images_not_tagged` silently classifies nothing
for that image. -/
theorem describe_fatal_on_error_silent_on_zero (cloud : Cloud) (r i b : String) :
    (cloud.describeErr r i = true →
      (get_image_info false cloud r i).err = some .systemExit) ∧
    (cloud.describeErr r i = false → cloud.images r i = [] →
      (get_image_info false cloud r i).err = none ∧
      (get_image_info false cloud r i).value = some [] ∧
      (get_images_not_tagged false cloud [(b, [(r, i)])]).err = none ∧
      (get_images_not_tagged false cloud [(b, [(r, i)])]).value = some []) := by
  constructor
  · intro h
    rw [get_image_info_live_err cloud r i h]
  · intro h hempty
    refine ⟨?_, ?_, ?_, ?_⟩
    · rw [get_image_info_live_ok cloud r i h]
    · rw [get_image_info_live_ok cloud r i h, hempty]
    · simp [get_images_not_tagged, notTaggedBuilds, notTaggedRegions, runCmd, h, hempty]
    · simp [get_images_not_tagged, notTaggedBuilds, notTaggedRegions, runCmd, h, hempty]

/-- Closed witness for the amended classification theorem: a raising
describe call is fatal, and a zero-image response gives a silent empty
classification. -/
theorem describe_fatal_on_error_silent_on_zero_witness :
    (get_image_info false c9ErrCloud "r9" "i9").err = some .systemExit ∧
    (get_images_not_tagged false c9Cloud [("b9", [("r9", "i9")])]).value = some [] := by
  exact ⟨(describe_fatal_on_error_silent_on_zero c9ErrCloud "r9" "i9" "b9").1 rfl,
    ((describe_fatal_on_error_silent_on_zero c9Cloud "r9" "i9" "b9").2 rfl rfl).2.2.2⟩

/-- The keys of a cons dict are the head key followed by the tail's keys. -/
theorem dictKeys_cons {α : Type} (k : String) (v : α) (tl : List (String × α)) :
    dictKeys ((k, v) :: tl) = k :: dictKeys tl := rfl

/-- A successful lookup means the key is present. -/
theorem dictGet_mem_keys {α : Type} :
    ∀ (d : List (String × α)) (k : String) (v : α),
      dictGet d k = some v → k ∈ dictKeys d := by
  intro d
  induction d with
  | nil => intro k v h; simp [dictGet] at h
  | cons p tl ih =>
    intro k v h
    obtain ⟨k', v'⟩ := p
    rw [dictKeys_cons]
    by_cases hk : k' = k
    · rw [hk]; exact List.mem_cons_self _ _
    · simp only [dictGet, if_neg hk] at h
      exact List.mem_cons_of_mem _ (ih k v h)

/-- Setting one key leaves the lookup of any other key unchanged. -/
theorem dictGet_dictSet_ne {α : Type} :
    ∀ (d : List (String × α)) (k0 k : String) (v : α), k ≠ k0 →
      dictGet (dictSet d k0 v) k = dictGet d k := by
  intro d
  induction d with
  | nil =>
    intro k0 k v hne
    simp [dictSet, dictGet, Ne.symm hne]
  | cons p tl ih =>
    intro k0 k v hne
    obtain ⟨k', v'⟩ := p
    by_cases hk : k' = k0
    · have hk' : ¬k' = k := by rw [hk]; exact Ne.symm hne
      simp only [dictSet, if_pos hk, dictGet, if_neg hk']
    · simp only [dictSet, if_neg hk, dictGet]
      by_cases hkk : k' = k
      · simp [if_pos hkk]
      · simp only [if_neg hkk]
        exact ih k0 k v hne

/-- Setting a key can only add that key to the key set. -/
theorem dictKeys_dictSet {α : Type} :
    ∀ (d : List (String × α)) (k0 : String) (v : α) (k : String),
      k ∈ dictKeys (dictSet d k0 v) → k ∈ dictKeys d ∨ k = k0 := by
  intro d
  induction d with
  | nil =>
    intro k0 v k h
    right
    simpa [dictSet, dictKeys] using h
  | cons p tl ih =>
    intro k0 v k h
    obtain ⟨k', v'⟩ := p
    by_cases hk : k' = k0
    · simp only [dictSet, if_pos hk] at h
      rw [dictKeys_cons] at h ⊢
      exact .inl h
    · simp only [dictSet, if_neg hk] at h
      rw [dictKeys_cons] at h
      rcases List.mem_cons.mp h with h1 | h1
      · left; rw [dictKeys_cons, h1]; exact List.mem_cons_self _ _
      · rcases ih k0 v k h1 with h2 | h2
        · left; rw [dictKeys_cons]; exact List.mem_cons_of_mem _ h2
        · exact .inr h2

/-- `dict.update` with keys outside the lookup key leaves it unchanged. -/
theorem dictUpdate_get_notMem :
    ∀ (new d : Ledger) (k : String), k ∉ dictKeys new →
      dictGet (dictUpdate d new) k = dictGet d k := by
  intro new
  induction new with
  | nil => intro d k _; rfl
  | cons p tl ih =>
    intro d k h
    obtain ⟨k0, v⟩ := p
    have hk : k ≠ k0 := by
      intro hkk
      exact h (by rw [dictKeys_cons, hkk]; exact List.mem_cons_self _ _)
    have htl : k ∉ dictKeys tl := by
      intro hm
      exact h (by rw [dictKeys_cons]; exact List.mem_cons_of_mem _ hm)
    have hstep : dictUpdate d ((k0, v) :: tl) = dictUpdate (dictSet d k0 v) tl := rfl
    rw [hstep, ih (dictSet d k0 v) k htl]
    exact dictGet_dictSet_ne d k0 k v hk

/-- Appending under one key can only add that key to the key set. -/
theorem appendAt_keys {α : Type} :
    ∀ (d : List (String × List α)) (k0 : String) (x : α) (k : String),
      k ∈ dictKeys (appendAt d k0 x) → k ∈ dictKeys d ∨ k = k0 := by
  intro d
  induction d with
  | nil =>
    intro k0 x k h
    right
    simpa [appendAt, dictKeys] using h
  | cons p tl ih =>
    intro k0 x k h
    obtain ⟨k', xs⟩ := p
    by_cases hk : k' = k0
    · simp only [appendAt, if_pos hk] at h
      rw [dictKeys_cons] at h ⊢
      exact .inl h
    · simp only [appendAt, if_neg hk] at h
      rw [dictKeys_cons] at h
      rcases List.mem_cons.mp h with h1 | h1
      · left; rw [dictKeys_cons, h1]; exact List.mem_cons_self _ _
      · rcases ih k0 x k h1 with h2 | h2
        · left; rw [dictKeys_cons]; exact List.mem_cons_of_mem _ h2
        · exact .inr h2

/-- Folding one build's regions into `new_data` only adds that build's key. -/
theorem foldl_appendAt_keys (b : String) :
    ∀ (regions : List RefPair) (nd : Ledger) (k : String),
      k ∈ dictKeys (regions.foldl
        (fun a r => appendAt a b ⟨r.region_id, r.image_id, false⟩) nd) →
      k ∈ dictKeys nd ∨ k = b := by
  intro regions
  induction regions with
  | nil => intro nd k h; exact .inl h
  | cons r rs ih =>
    intro nd k h
    rcases ih (appendAt nd b ⟨r.region_id, r.image_id, false⟩) k h with h1 | h1
    · exact appendAt_keys nd b _ k h1
    · exact .inr h1

/-- The keys of the staged `new_data` all come from `image_list`. -/
theorem newDataOf_keys :
    ∀ (il : List (String × List RefPair)) (nd : Ledger) (k : String),
      k ∈ dictKeys (newDataOf il nd) → k ∈ dictKeys nd ∨ k ∈ dictKeys il := by
  intro il
  induction il with
  | nil => intro nd k h; exact .inl h
  | cons p tl ih =>
    intro nd k h
    obtain ⟨b, regions⟩ := p
    rcases ih _ k h with h1 | h1
    · rcases foldl_appendAt_keys b regions nd k h1 with h2 | h2
      · exact .inl h2
      · right; rw [dictKeys_cons, h2]; exact List.mem_cons_self _ _
    · right; rw [dictKeys_cons]; exact List.mem_cons_of_mem _ h1

/-- Every build id `parse_release` records was absent from the ledger keys
it was given: builds already in the file are skipped before anything else. -/
theorem parseReleaseGo_keys (release : String) (jkeys : List String)
    (meta : String → String → Option (List MetaEntry)) :
    ∀ (builds : List BuildRec) (acc out : List (String × List (String × String))),
      parseReleaseGo release jkeys meta builds acc = .ok out →
      ∀ k, k ∈ dictKeys out → k ∈ dictKeys acc ∨ k ∉ jkeys := by
  intro builds
  induction builds with
  | nil =>
    intro acc out h k hk
    simp only [parseReleaseGo] at h
    injection h with h
    subst h
    exact .inl hk
  | cons build tl ih =>
    intro acc out h k hk
    by_cases hin : build.id ∈ jkeys
    · simp only [parseReleaseGo, if_pos hin] at h
      exact ih acc out h k hk
    · simp only [parseReleaseGo, if_neg hin] at h
      cases harch : build.arches with
      | nil => simp only [harch] at h; exact Except.noConfusion h
      | cons arch as =>
        simp only [harch] at h
        cases hbi : buildidInt build.id with
        | error e => simp only [hbi] at h; exact Except.noConfusion h
        | ok n =>
          simp only [hbi] at h
          cases hth : firstReleaseThreshold arch release with
          | error e => simp only [hth] at h; exact Except.noConfusion h
          | ok thr =>
            simp only [hth] at h
            by_cases hge : n ≥ thr
            · simp only [if_pos hge] at h
              cases hm : meta build.id arch with
              | none => simp only [hm] at h; exact ih _ out h k hk
              | some entries =>
                simp only [hm] at h
                rcases ih _ out h k hk with h1 | h1
                · rcases dictKeys_dictSet acc build.id _ k h1 with h2 | h2
                  · exact .inl h2
                  · right; rw [h2]; exact hin
                · exact .inr h1
            · simp only [if_neg hge] at h
              exact ih _ out h k hk

/-- The per-build loop of `delete_image` never touches an entry already
marked deleted: such entries appear unchanged in the in-memory list. -/
theorem processBuild_preserves_true (dry_run : Bool) (cloud : Cloud) (ck cv : String) :
    ∀ (items : List LedgerEntry) (pos i : Nat) (e : LedgerEntry),
      items[i]? = some e → e.deleted = true →
      (processBuild dry_run cloud ck cv pos items).items[i]? = some e := by
  intro items
  induction items with
  | nil => intro pos i e h _; simp at h
  | cons item tl ih =>
    intro pos i e h ht
    cases hd : item.deleted with
    | true =>
      have hres : (processBuild dry_run cloud ck cv pos (item :: tl)).items =
          item :: (processBuild dry_run cloud ck cv (pos + 1) tl).items := by
        rw [processBuild]; simp [hd]
      rw [hres]
      cases i with
      | zero => rw [List.getElem?_cons_zero] at h ⊢; exact h
      | succ i' =>
        rw [List.getElem?_cons_succ] at h ⊢
        exact ih (pos + 1) i' e h ht
    | false =>
      cases hstep : stepEntry dry_run cloud ck cv item with
      | aborted cs ws ex =>
        have hres : (processBuild dry_run cloud ck cv pos (item :: tl)).items =
            item :: tl := by
          rw [processBuild]; simp [hd, hstep]
        rw [hres]; exact h
      | done item' cs ws =>
        have hres : (processBuild dry_run cloud ck cv pos (item :: tl)).items =
            item' :: (processBuild dry_run cloud ck cv (pos + 1) tl).items := by
          rw [processBuild]; simp [hd, hstep]
        rw [hres]
        cases i with
        | zero =>
          rw [List.getElem?_cons_zero] at h
          injection h with h
          rw [h, ht] at hd
          exact absurd hd (by decide)
        | succ i' =>
          rw [List.getElem?_cons_succ] at h ⊢
          exact ih (pos + 1) i' e h ht

/-- Whatever ledger `delete_image` writes back, an entry that was already
`deleted = True` is still there, unchanged: the flag never reverts. -/
theorem delete_image_preserves_true (dry_run : Bool) (cloud : Cloud)
    (ck cv : Option String) (L L' : Ledger) (b : String) (i : Nat) (e : LedgerEntry)
    (hfs : (delete_image dry_run cloud (some L) ck cv).fs = some L')
    (hE : entryAt L b i = some e) (hT : e.deleted = true) :
    entryAt L' b i = some e := by
  cases L with
  | nil =>
    have hnil : (delete_image dry_run cloud (some []) ck cv).fs = some [] := rfl
    rw [hnil] at hfs
    injection hfs with hfs
    rw [← hfs]
    exact hE
  | cons p rest =>
    obtain ⟨b0, items⟩ := p
    cases habort : (processBuild dry_run cloud (ck.getD "bootimage") (cv.getD "true")
        0 items).abort with
    | some ex =>
      have hres : (delete_image dry_run cloud (some ((b0, items) :: rest)) ck cv).fs =
          some ((b0, items) :: rest) := by
        simp [delete_image, habort]
      rw [hres] at hfs
      injection hfs with hfs
      rw [← hfs]
      exact hE
    | none =>
      have hres : (delete_image dry_run cloud (some ((b0, items) :: rest)) ck cv).fs =
          some ((b0, (processBuild dry_run cloud (ck.getD "bootimage") (cv.getD "true")
            0 items).items) :: rest) := by
        simp [delete_image, habort]
      rw [hres] at hfs
      injection hfs with hfs
      rw [← hfs]
      by_cases hb : b0 = b
      · subst hb
        have hget : dictGet ((b0, items) :: rest) b0 = some items := by
          simp [dictGet]
        have hget' : dictGet ((b0, (processBuild dry_run cloud (ck.getD "bootimage")
            (cv.getD "true") 0 items).items) :: rest) b0 =
            some (processBuild dry_run cloud (ck.getD "bootimage")
              (cv.getD "true") 0 items).items := by
          simp [dictGet]
        simp only [entryAt, hget']
        simp only [entryAt, hget] at hE
        exact processBuild_preserves_true dry_run cloud _ _ items 0 i e hE hT
      · have hsame : dictGet ((b0, (processBuild dry_run cloud (ck.getD "bootimage")
            (cv.getD "true") 0 items).items) :: rest) b = dictGet rest b := by
          simp [dictGet, hb]
        have hsame2 : dictGet ((b0, items) :: rest) b = dictGet rest b := by
          simp [dictGet, hb]
        simp only [entryAt, hsame]
        simp only [entryAt, hsame2] at hE
        exact hE

/-- C7: an entry persisted with `deleted = True` is never written back with
`deleted = False` by any operation of a run: candidate selection
(`parse_release`) never re-selects a build already in the ledger, so the
staging write (`tag_image_and_save_to_file`) — whose staged builds all come
from the selected candidates — leaves that build's list untouched, and the
deletion worker (`delete_image`) leaves entries already marked deleted
unchanged in whatever ledger it writes back. -/
theorem ledger_deleted_flag_monotone
    (L : Ledger) (b : String) (i : Nat) (e : LedgerEntry)
    (release : String) (builds : List BuildRec)
    (meta : String → String → Option (List MetaEntry))
    (out : List (String × List (String × String)))
    (image_list : List (String × List RefPair))
    (dry_run : Bool) (cloud : Cloud) (L' : Ledger)
    (hE : entryAt L b i = some e)
    (hT : e.deleted = true)
    (hPR : parse_release release builds (dictKeys L) meta = .ok out)
    (hIL : ∀ k, k ∈ dictKeys image_list → k ∈ dictKeys out)
    (hD : (delete_image dry_run cloud (some L) none none).fs = some L') :
    b ∉ dictKeys out ∧
    entryAt (tag_image_and_save_to_file image_list (some L)) b i = some e ∧
    entryAt L' b i = some e := by
  have hbL : b ∈ dictKeys L := by
    rcases hget : dictGet L b with _ | items
    · simp only [entryAt, hget] at hE
      exact absurd hE (by simp)
    · exact dictGet_mem_keys L b items hget
  have hout : b ∉ dictKeys out := by
    intro hmem
    rcases parseReleaseGo_keys release (dictKeys L) meta builds [] out hPR b hmem with h1 | h1
    · exact absurd h1 (List.not_mem_nil b)
    · exact h1 hbL
  refine ⟨hout, ?_,
    delete_image_preserves_true dry_run cloud none none L L' b i e hD hE hT⟩
  have hnew : b ∉ dictKeys (newDataOf image_list []) := by
    intro hmem
    rcases newDataOf_keys image_list [] b hmem with h1 | h1
    · exact absurd h1 (List.not_mem_nil b)
    · exact hout (hIL b h1)
  have hkeep : dictGet (dictUpdate L (newDataOf image_list [])) b = dictGet L b :=
    dictUpdate_get_notMem (newDataOf image_list []) L b hnew
  simp only [tag_image_and_save_to_file]
  simp only [entryAt, hkeep]
  simp only [entryAt] at hE
  exact hE

/-- Closed witness for the monotonicity theorem: a ledger with one deleted
entry passes through candidate selection, staging and the deletion worker
unchanged. -/
theorem ledger_deleted_flag_monotone_witness :
    entryAt (tag_image_and_save_to_file [] (some c7Ledger)) "bX" 0 =
      some ⟨"rX", "iX", true⟩ ∧
    entryAt c7Ledger "bX" 0 = some ⟨"rX", "iX", true⟩ := by
  have h := ledger_deleted_flag_monotone c7Ledger "bX" 0 ⟨"rX", "iX", true⟩
    "4.10" c7Builds c7Meta [] [] false c7Cloud c7Ledger
    (by decide) rfl rfl (fun k hk => by simp [dictKeys] at hk) (by decide)
  exact ⟨h.2.1, h.2.2⟩

/-- C8: `change_visibility` first reads the current visibility through the
describe query, and the modify call is issued exactly when the image's
current `IsPublic` differs from the desired value; when they are equal no
modify call is made and the no-op document is returned. -/
theorem change_visibility_idempotency_guard
    (cloud : Cloud) (region_id image_id : String) (public : Bool)
    (img : Image) (tl : List Image)
    (hdesc : cloud.describeErr region_id image_id = false)
    (himgs : cloud.images region_id image_id = img :: tl) :
    (change_visibility false cloud region_id image_id public).calls.head? =
      some (.describeImages region_id image_id) ∧
    (Request.modifyImageSharePermission region_id image_id public ∈
        (change_visibility false cloud region_id image_id public).calls ↔
      img.isPublic ≠ public) ∧
    (img.isPublic = public →
      (change_visibility false cloud region_id image_id public).calls =
        [.describeImages region_id image_id] ∧
      (change_visibility false cloud region_id image_id public).value = some .noopDoc ∧
      (change_visibility false cloud region_id image_id public).err = none) := by
  have hres : get_image_info false cloud region_id image_id =
      ⟨some (img :: tl), [.describeImages region_id image_id], none⟩ := by
    rw [get_image_info_live_ok cloud region_id image_id hdesc, himgs]
  by_cases hp : img.isPublic = public
  · have hcv : change_visibility false cloud region_id image_id public =
        ⟨some .noopDoc, [.describeImages region_id image_id], none⟩ := by
      simp [change_visibility, hres, hp]
    rw [hcv]
    refine ⟨rfl, ?_, fun _ => ⟨rfl, rfl, rfl⟩⟩
    constructor
    · intro hm
      exact absurd hm (by simp)
    · intro hne
      exact absurd hp hne
  · cases hme : cloud.mutateErr (.modifyImageSharePermission region_id image_id public) with
    | false =>
      have hcv : change_visibility false cloud region_id image_id public =
          ⟨some .respDoc,
           [.describeImages region_id image_id,
            .modifyImageSharePermission region_id image_id public], none⟩ := by
        simp [change_visibility, hres, hp, runCmd, hme]
      rw [hcv]
      refine ⟨rfl, ?_, fun h => absurd h hp⟩
      constructor
      · intro _; exact hp
      · intro _; simp
    | true =>
      have hcv : change_visibility false cloud region_id image_id public =
          ⟨none,
           [.describeImages region_id image_id,
            .modifyImageSharePermission region_id image_id public], some .systemExit⟩ := by
        simp [change_visibility, hres, hp, runCmd, hme]
      rw [hcv]
      refine ⟨rfl, ?_, fun h => absurd h hp⟩
      constructor
      · intro _; exact hp
      · intro _; simp

/-- Closed witness for the visibility guard: an image already public is left
alone — only the describe call goes out and the no-op document comes back. -/
theorem change_visibility_idempotency_guard_witness :
    (change_visibility false c8Cloud "r8" "i8" true).value = some .noopDoc ∧
    Request.modifyImageSharePermission "r8" "i8" true ∉
      (change_visibility false c8Cloud "r8" "i8" true).calls := by
  have h := change_visibility_idempotency_guard c8Cloud "r8" "i8" true
    ⟨"i8", [], true⟩ [] rfl rfl
  refine ⟨(h.2.2 rfl).2.1, ?_⟩
  intro hm
  exact (h.2.1.mp hm) rfl

end RhcosAliyunPruner
